import Mathlib

/-!
Shallow embedding of `src/DQN/minigrid/environment.py` (`MultiGridEnv`).

Machine integers are modelled as `ℤ`/`ℕ` (Python ints are unbounded, so no
wrap-around is needed); Python floats (`gamma`, rewards, `max_edge_dist`) are
modelled as exact rationals `ℚ`.  The two grid maps of the `Grid` collaborator
(static cell content and agent occupancy, spec §4.1) are modelled as total
functions from coordinates, mutated by `Function.update` in the same order as
the source's `set` / `set_agent` calls.
-/

namespace MultiGrid

/-- Modelled from the spec: the four cardinal move intents `{up, down, left,
right}` of `utils.Actions` (the `utils` module is not in `src/`); spec §4.3. -/
inductive Action
  | up
  | down
  | left
  | right
deriving DecidableEq

/-- Modelled from the spec: the display color tag of an entity (spec §3); the
source uses the strings `'green'` (fresh goal) and `'grey'` (collected goal /
blocking entity). `minigrid/world.py` is not in `src/`. -/
inductive Color
  | green
  | grey
deriving DecidableEq

/-- Static cell content of the grid: a wall, or a goal / obstacle referenced by
its index in the environment's `goals` / `obstacles` lists.  An empty cell is
`Option.none` (Python `None`). -/
inductive Cell
  | wall
  | goal (i : ℕ)
  | obstacle (i : ℕ)
deriving DecidableEq

/-- Modelled from the spec: the `can_overlap` capability flag of
`minigrid/world.py` (not in `src/`).  Spec §4.4 fixes Goal cells (collected or
not) as overlappable and obstacles as "overlappable-but-penalized, distinct
from walls which block entirely"; walls block.  (Spec §3's summary sentence
lists `can_overlap` as false for Obstacle, which contradicts §4.4 and would
make the `Obstacle` branch of `_handle_overlap` in `environment.py`, and the
configured `penalty_obstacle`, dead code; §4.4 is the behavioural description
of move resolution and is the one consistent with the source.) -/
def canOverlap : Cell → Bool
  | .wall => false
  | .goal _ => true
  | .obstacle _ => true

/-- State of one `Goal` entity: `cur_pos`, the `collected` flag and the color
tag (see `reset` / `_place_object` / `_handle_overlap` in the source). -/
structure GoalSt where
  pos : ℤ × ℤ
  collected : Bool
  color : Color
deriving DecidableEq

/-- State of one agent that the environment reads and writes: `cur_pos`.
(The source also caches `agent.obs` and `agent.goals` in `_get_obs`; per spec
§4.5 those are side outputs "used by no other core logic", consumed only by the
rendering collaborator, so the embedding returns them instead of storing
them.) -/
structure AgentSt where
  pos : ℤ × ℤ
deriving DecidableEq

/-- The fields of `MultiGridEnv` that the simulation core reads or writes
(`__init__` plus the mutable episode state).  `cellAt` / `agentAt` are the two
parallel maps of the `Grid` collaborator; `seen` is the `seen_cells` boolean
matrix, indexed like the source by inner-grid coordinates (cell `(i, j)` of the
full grid is entry `(i - 1, j - 1)`). -/
structure Env where
  width : ℕ
  height : ℕ
  gamma : ℚ
  maxEdgeDist : ℚ
  maxSteps : ℕ
  numGoals : ℕ
  rewardGoal : ℚ
  penaltyObstacle : ℚ
  penaltyGoal : ℚ
  penaltyInvalidMove : ℚ
  stepCount : ℕ
  numCollected : ℕ
  goals : List GoalSt
  agents : List AgentSt
  cellAt : ℤ × ℤ → Option Cell
  agentAt : ℤ × ℤ → Option ℕ
  seen : ℕ × ℕ → Bool

/-- The target position of a cardinal move (`step`, lines 249-260: up is
`y - 1`, down is `y + 1`, left is `x - 1`, right is `x + 1`). -/
def movePos : ℤ × ℤ → Action → ℤ × ℤ
  | (x, y), .up => (x, y - 1)
  | (x, y), .down => (x, y + 1)
  | (x, y), .left => (x - 1, y)
  | (x, y), .right => (x + 1, y)

/-- Source `MultiGridEnv._reward`: `reward * (self.gamma ** self.step_count)`. -/
def Env.reward (e : Env) (r : ℚ) : ℚ :=
  r * e.gamma ^ e.stepCount

/-- Here `sqrtLe d2 m` decides `math.sqrt d2 <= m` without leaving `ℚ`: for
`0 ≤ d2`, `Real.sqrt d2 ≤ m ↔ 0 ≤ m ∧ d2 ≤ m * m` (see
`sqrtLe_iff_sqrt_le`).  The source always applies it to a sum of two integer
squares, which is nonnegative. -/
def sqrtLe (d2 m : ℚ) : Bool :=
  decide (0 ≤ m) && decide (d2 ≤ m * m)

/-- The squared Euclidean distance between two integer grid positions; the
source compares `math.sqrt (dist2 p q)` against `max_edge_dist`. -/
def dist2 (p q : ℤ × ℤ) : ℤ :=
  (p.1 - q.1) ^ 2 + (p.2 - q.2) ^ 2

/-- The bounds test of `step`, line 267:
`0 <= new_pos[0] < self.width and 0 <= new_pos[1] < self.height`. -/
def inBounds (e : Env) (p : ℤ × ℤ) : Bool :=
  decide (0 ≤ p.1) && decide (p.1 < (e.width : ℤ)) &&
    decide (0 ≤ p.2) && decide (p.2 < (e.height : ℤ))

/-- The per-agent done condition of `step`, line 278:
`self.step_count >= self.max_steps or self.num_collected >= self.num_goals`. -/
def doneCond (e : Env) : Bool :=
  decide (e.maxSteps ≤ e.stepCount) || decide (e.numGoals ≤ e.numCollected)

/-- The three agent-movement lines shared by the free-move branch of `step`
(lines 268-270) and `_handle_overlap` (lines 235-237):
`set_agent(new_pos, agents[i]); set_agent(agents[i].cur_pos, None);
agents[i].cur_pos = new_pos` — the new cell is set before the old one is
cleared, in source order.  (`agents[i]` with `i` out of range raises
`IndexError` in the source; the `none` branch is that unreachable case.) -/
def moveOnto (e : Env) (i : ℕ) (np : ℤ × ℤ) : Env :=
  match e.agents[i]? with
  | none => e
  | some ag =>
      { e with
        agentAt := Function.update (Function.update e.agentAt np (some i)) ag.pos none
        agents := e.agents.set i { ag with pos := np } }

/-- Source `MultiGridEnv._handle_overlap` (lines 220-238).  The `Cell.wall` branch is
the source's final `raise ValueError` branch, unreachable from `step` because
the call is guarded by `cell.can_overlap()`; likewise a dangling goal index
(`goals[gi]?` = `none`) cannot occur since grid goal cells are created from the
`goals` list. -/
def handleOverlap (e : Env) (i : ℕ) (fwdPos : ℤ × ℤ) (fwdCell : Cell) : Env × ℚ :=
  match fwdCell with
  | .goal gi =>
      match e.goals[gi]? with
      | none => (e, 0)
      | some g =>
          if g.collected = false then
            let e1 : Env :=
              { e with
                goals := e.goals.set gi { g with color := Color.grey, collected := true }
                numCollected := e.numCollected + 1 }
            (moveOnto e1 i fwdPos, e.reward e.rewardGoal)
          else
            (moveOnto e i fwdPos, e.reward e.penaltyGoal)
  | .obstacle _ => (moveOnto e i fwdPos, e.reward e.penaltyObstacle)
  | .wall => (e, 0)

/-- One iteration of the per-agent loop of `step` (lines 246-279): resolve
agent `i`'s intent and evaluate its done condition on the resolved state.
The source's `if cell is None and agent is None and <in bounds>` /
`elif cell and cell.can_overlap()` / `else` cascade is split on whether the
target cell has static content: with content `c` the first test is false and
the `elif` reduces to `can_overlap c`; with no content the `elif` is false
(Python `None` is falsy) and the first test reduces to the occupancy and
bounds checks.  (`agents[i]` with `i ≥ len(agents)` raises `IndexError` in the
source; the `none` branch is that unreachable case.) -/
def stepAgent (e : Env) (i : ℕ) (a : Action) : Env × ℚ × Bool :=
  match e.agents[i]? with
  | none => (e, 0, doneCond e)
  | some ag =>
      let np := movePos ag.pos a
      match e.cellAt np with
      | none =>
          if e.agentAt np = none ∧ inBounds e np = true then
            let e' := moveOnto e i np
            (e', 0, doneCond e')
          else
            (e, e.reward (-5), doneCond e)
      | some c =>
          if canOverlap c = true then
            let r := handleOverlap e i np c
            (r.1, r.2, doneCond r.1)
          else
            (e, e.reward (-5), doneCond e)

/-- The whole `for i, action in enumerate(actions)` loop of `step`, threading
the environment left to right and collecting each agent's reward and done
flag (agent `i` sees the grid as already mutated by agents `0, …, i-1`). -/
def stepLoop (e : Env) (i : ℕ) : List Action → Env × List ℚ × List Bool
  | [] => (e, [], [])
  | a :: rest =>
      let s := stepAgent e i a
      let t := stepLoop s.1 (i + 1) rest
      (t.1, s.2.1 :: t.2.1, s.2.2 :: t.2.2)

/-- Predicate `agentsCover e q`: some agent's Euclidean distance to full-grid cell `q`
is `≤ max_edge_dist` (the `for agent in self.agents … break` inner loop of
`_update_seen_cells`). -/
def agentsCover (e : Env) (q : ℤ × ℤ) : Bool :=
  e.agents.any fun ag => sqrtLe ((dist2 q ag.pos : ℤ) : ℚ) e.maxEdgeDist

/-- Source `MultiGridEnv._update_seen_cells` (lines 303-311): for every interior cell
`(i, j)`, `1 ≤ i ≤ width - 2`, `1 ≤ j ≤ height - 2`, set entry `(i-1, j-1)` of
the matrix when some agent covers `(i, j)`; entries are never cleared, and
entries outside the loop's range are untouched. -/
def updateSeenCells (e : Env) : Env :=
  { e with
    seen := fun p =>
      if p.1 + 1 < e.width - 1 ∧ p.2 + 1 < e.height - 1 then
        e.seen p || agentsCover e (((p.1 : ℤ) + 1, (p.2 : ℤ) + 1))
      else
        e.seen p }

/-- Source `total_cells` of `__init__`: `(self.width - 2) * (self.height - 2)`. -/
def totalCells (e : Env) : ℕ :=
  (e.width - 2) * (e.height - 2)

/-- Source `np.sum(self.seen_cells)`: the number of `true` entries of the
`(width - 2) × (height - 2)` seen matrix. -/
def seenCount (e : Env) : ℕ :=
  (((Finset.range (e.width - 2)) ×ˢ (Finset.range (e.height - 2))).filter
    fun p => e.seen p = true).card

/-- Source `MultiGridEnv._calculate_seen_percentage`:
`np.sum(self.seen_cells) / self.total_cells * 100`. -/
def seenPercentage (e : Env) : ℚ :=
  (seenCount e : ℚ) / (totalCells e : ℚ) * 100

/-- Function `step` up to (and including) the dones lift and the coverage update
(lines 240-284): increment `step_count`, resolve every agent in order, pad
`rewards` / `dones` to `len(self.agents)` (they are created with that length
up front), apply the `[True if any(dones) else d for d in dones]` lift, and
run `_update_seen_cells`. -/
def stepResolve (e : Env) (acts : List Action) : Env × List ℚ × List Bool :=
  let e0 : Env := { e with stepCount := e.stepCount + 1 }
  let t := stepLoop e0 0 acts
  let rewards := t.2.1 ++ List.replicate (t.1.agents.length - acts.length) 0
  let dones0 := t.2.2 ++ List.replicate (t.1.agents.length - acts.length) false
  let dones := if dones0.any (fun d => d) then dones0.map (fun _ => true) else dones0
  (updateSeenCells t.1, rewards, dones)

/-- The `info` dictionary of `step` (lines 286-293): on a termination tick it
carries `goals_collected`, `goals_percentage` and `seen_percentage`, otherwise
only `seen_percentage`. -/
inductive Info
  | terminal (goalsCollected : ℕ) (goalsPercentage : ℚ) (seenPct : ℚ)
  | running (seenPct : ℚ)
deriving DecidableEq

/-- Goals within the agent's field of view, paired with their (squared)
distance: the `for goal in self.goals` filter loop of `_get_obs`
(lines 183-187), which keeps a goal exactly when
`dist <= self.max_edge_dist and not goal.collected`.  The sort key is the
squared distance; `math.sqrt` is strictly monotone, so comparisons of the
source's float distances agree with comparisons of these integer squares. -/
def fovPairs (e : Env) (a : AgentSt) : List (GoalSt × ℤ) :=
  e.goals.foldl
    (fun acc g =>
      if sqrtLe ((dist2 a.pos g.pos : ℤ) : ℚ) e.maxEdgeDist && !g.collected then
        acc ++ [(g, dist2 a.pos g.pos)]
      else acc)
    []

/-- Source lines 190-191,
`goals_in_fov.sort(key=lambda x: x[1]); goals_in_fov = goals_in_fov[:3]`
(lines 190-191).  Python's sort is stable; `List.insertionSort` with the
non-strict key comparison inserts each element before the equal-keyed elements
that follow it in the remaining list, which is the same stable order. -/
def fovSorted (e : Env) (a : AgentSt) : List (GoalSt × ℤ) :=
  (List.insertionSort (fun p q : GoalSt × ℤ => p.2 ≤ q.2) (fovPairs e a)).take 3

/-- The goal section of the observation: for each selected goal append
`(x, y, int(collected))` (lines 194-196). -/
def goalTriples (sel : List (GoalSt × ℤ)) : List ℤ :=
  sel.foldl
    (fun acc p => acc ++ [p.1.pos.1, p.1.pos.2, if p.1.collected then 1 else 0])
    []

/-- Source `MultiGridEnv._get_obs` (lines 178-208): the agent's own position, the
triples of the up-to-3 nearest in-view goals, then the padding
`[0, 0, 0] * (3 - num_goals)` (a flat list of `3 * (3 - n)` zeros). -/
def getObs (e : Env) (a : AgentSt) : List ℤ :=
  [a.pos.1, a.pos.2] ++ goalTriples (fovSorted e a) ++
    (List.replicate (3 - (fovSorted e a).length) ([0, 0, 0] : List ℤ)).flatten

/-- Full `MultiGridEnv.step` (lines 240-301): resolve the tick, then build
`info` and the per-agent observations.  On a termination tick the source
computes `(self.num_collected / self.num_goals) * 100`; with `num_goals = 0`
that division raises `ZeroDivisionError` and `step` returns nothing — the
`none` result. -/
def step (e : Env) (acts : List Action) :
    Option (Env × List ℚ × List Bool × Info × List (List ℤ)) :=
  let t := stepResolve e acts
  let e2 := t.1
  let seenPct := seenPercentage e2
  if (t.2.2).any (fun d => d) then
    if e2.numGoals = 0 then
      none
    else
      some (e2, t.2.1, t.2.2,
        Info.terminal e2.numCollected ((e2.numCollected : ℚ) / (e2.numGoals : ℚ) * 100) seenPct,
        e2.agents.map (getObs e2))
  else
    some (e2, t.2.1, t.2.2, Info.running seenPct, e2.agents.map (getObs e2))

/-- The `while True` body of `MultiGridEnv._place_object` (lines 144-155),
indexed by fuel: `samples` is the stream of positions produced by successive
`_rand_pos(1, width - 2, 1, height - 2)` draws, `k` the index of the next
draw; the loop breaks at the first sampled cell with no static content
(`if not self.grid.get(x, y)`), returning the chosen position.  `none` means
the loop is still running after `fuel` iterations — the source has no retry
cap and no failure path. -/
def placeLoop (cellAt : ℤ × ℤ → Option Cell) (samples : ℕ → ℤ × ℤ) :
    ℕ → ℕ → Option (ℤ × ℤ)
  | _, 0 => none
  | k, fuel + 1 =>
      if cellAt (samples k) = none then some (samples k)
      else placeLoop cellAt samples (k + 1) fuel

/-- The rejection-sampling loop terminates: some finite fuel suffices. -/
def placeTerminates (cellAt : ℤ × ℤ → Option Cell) (samples : ℕ → ℤ × ℤ) : Prop :=
  ∃ fuel, (placeLoop cellAt samples 0 fuel).isSome

/-- Faithfulness of the `sqrtLe` encoding: for a nonnegative radicand it
decides exactly the source's `math.sqrt d2 <= m` comparison over the reals. -/
lemma sqrtLe_iff_sqrt_le (d2 m : ℚ) (h : 0 ≤ d2) :
    sqrtLe d2 m = true ↔ Real.sqrt (d2 : ℝ) ≤ (m : ℝ) := by
  simp only [sqrtLe, Bool.and_eq_true, decide_eq_true_eq]
  constructor
  · rintro ⟨hm, hle⟩
    have hle' : (d2 : ℝ) ≤ (m : ℝ) * (m : ℝ) := by exact_mod_cast hle
    calc Real.sqrt (d2 : ℝ) ≤ Real.sqrt ((m : ℝ) * (m : ℝ)) := Real.sqrt_le_sqrt hle'
      _ = (m : ℝ) := Real.sqrt_mul_self (by exact_mod_cast hm)
  · intro hs
    have hm : (0 : ℝ) ≤ (m : ℝ) := le_trans (Real.sqrt_nonneg _) hs
    refine ⟨by exact_mod_cast hm, ?_⟩
    have h2 : (d2 : ℝ) ≤ (m : ℝ) * (m : ℝ) := by
      calc (d2 : ℝ) = Real.sqrt (d2 : ℝ) * Real.sqrt (d2 : ℝ) :=
            (Real.mul_self_sqrt (by exact_mod_cast h)).symm
        _ ≤ (m : ℝ) * (m : ℝ) := mul_le_mul hs hs (Real.sqrt_nonneg _) hm
    exact_mod_cast h2

/-! ### Preservation of scalar fields through one tick's resolution -/

/-- The configuration fields, `step_count`, the agent count and the seen
matrix are untouched by per-agent move resolution, and `num_collected` only
grows. -/
structure Pres (e e' : Env) : Prop where
  width : e'.width = e.width
  height : e'.height = e.height
  gamma : e'.gamma = e.gamma
  maxEdgeDist : e'.maxEdgeDist = e.maxEdgeDist
  maxSteps : e'.maxSteps = e.maxSteps
  numGoals : e'.numGoals = e.numGoals
  stepCount : e'.stepCount = e.stepCount
  agentsLen : e'.agents.length = e.agents.length
  numCollected_le : e.numCollected ≤ e'.numCollected
  seen : e'.seen = e.seen

lemma pres_refl (e : Env) : Pres e e := by
  exact ⟨rfl, rfl, rfl, rfl, rfl, rfl, rfl, rfl, le_refl _, rfl⟩

lemma pres_trans {e1 e2 e3 : Env} (h : Pres e1 e2) (h' : Pres e2 e3) :
    Pres e1 e3 := by
  exact ⟨h'.width.trans h.width, h'.height.trans h.height, h'.gamma.trans h.gamma,
    h'.maxEdgeDist.trans h.maxEdgeDist, h'.maxSteps.trans h.maxSteps,
    h'.numGoals.trans h.numGoals, h'.stepCount.trans h.stepCount,
    h'.agentsLen.trans h.agentsLen, h.numCollected_le.trans h'.numCollected_le,
    h'.seen.trans h.seen⟩

lemma pres_moveOnto (e : Env) (i : ℕ) (np : ℤ × ℤ) : Pres e (moveOnto e i np) := by
  unfold moveOnto
  cases h : e.agents[i]? with
  | none => exact pres_refl e
  | some ag =>
      refine ⟨rfl, rfl, rfl, rfl, rfl, rfl, rfl, ?_, le_refl _, rfl⟩
      simp

lemma pres_handleOverlap (e : Env) (i : ℕ) (p : ℤ × ℤ) (c : Cell) :
    Pres e (handleOverlap e i p c).1 := by
  unfold handleOverlap
  cases c with
  | wall => exact pres_refl e
  | obstacle k => exact pres_moveOnto e i p
  | goal gi =>
      cases hg : e.goals[gi]? with
      | none => simp only [hg]; exact pres_refl e
      | some g =>
          simp only [hg]
          cases hcol : g.collected with
          | false =>
              simp only [hcol, if_pos rfl]
              have h1 : Pres e
                  { e with
                    goals := e.goals.set gi { g with color := Color.grey, collected := true }
                    numCollected := e.numCollected + 1 } :=
                ⟨rfl, rfl, rfl, rfl, rfl, rfl, rfl, rfl, Nat.le_succ _, rfl⟩
              exact pres_trans h1 (pres_moveOnto _ i p)
          | true =>
              rw [if_neg (by simp [hcol])]
              exact pres_moveOnto e i p

lemma pres_stepAgent (e : Env) (i : ℕ) (a : Action) :
    Pres e (stepAgent e i a).1 := by
  unfold stepAgent
  cases h : e.agents[i]? with
  | none => simp only [h]; exact pres_refl e
  | some ag =>
      simp only [h]
      cases hc : e.cellAt (movePos ag.pos a) with
      | none =>
          simp only [hc]
          split
          · exact pres_moveOnto e i _
          · exact pres_refl e
      | some c =>
          simp only [hc]
          split
          · exact pres_handleOverlap e i _ c
          · exact pres_refl e

lemma pres_stepLoop : ∀ (acts : List Action) (e : Env) (i : ℕ),
    Pres e (stepLoop e i acts).1
  | [], e, _ => pres_refl e
  | a :: rest, e, i =>
      pres_trans (pres_stepAgent e i a)
        (pres_stepLoop rest (stepAgent e i a).1 (i + 1))

lemma doneCond_eq_true_iff (e : Env) :
    doneCond e = true ↔ (e.maxSteps ≤ e.stepCount ∨ e.numGoals ≤ e.numCollected) := by
  simp [doneCond]

lemma doneCond_mono {e e' : Env} (h : Pres e e') (hd : doneCond e = true) :
    doneCond e' = true := by
  rw [doneCond_eq_true_iff] at hd ⊢
  rcases hd with hd | hd
  · exact Or.inl (by rw [h.maxSteps, h.stepCount]; exact hd)
  · exact Or.inr (by rw [h.numGoals]; exact hd.trans h.numCollected_le)

lemma stepAgent_done (e : Env) (i : ℕ) (a : Action) :
    (stepAgent e i a).2.2 = doneCond (stepAgent e i a).1 := by
  unfold stepAgent
  cases h : e.agents[i]? with
  | none => simp only [h]
  | some ag =>
      simp only [h]
      cases hc : e.cellAt (movePos ag.pos a) with
      | none => simp only [hc]; split <;> rfl
      | some c => simp only [hc]; split <;> rfl

lemma pres_updateSeen_fields (e : Env) :
    (updateSeenCells e).width = e.width ∧ (updateSeenCells e).height = e.height ∧
      (updateSeenCells e).stepCount = e.stepCount ∧
      (updateSeenCells e).maxSteps = e.maxSteps ∧
      (updateSeenCells e).numGoals = e.numGoals ∧
      (updateSeenCells e).numCollected = e.numCollected ∧
      (updateSeenCells e).agents.length = e.agents.length := by
  refine ⟨rfl, rfl, rfl, rfl, rfl, rfl, rfl⟩

lemma doneCond_updateSeen (e : Env) : doneCond (updateSeenCells e) = doneCond e := rfl

/-! ### The per-agent done flags collected by the loop -/

lemma stepLoop_dones_length : ∀ (acts : List Action) (e : Env) (i : ℕ),
    (stepLoop e i acts).2.2.length = acts.length
  | [], _, _ => rfl
  | _ :: rest, e, i => by
      simp only [stepLoop, List.length_cons]
      rw [stepLoop_dones_length rest]

/-- Once the done condition holds before some agent's check, it holds at every
later check: every collected flag is `true`. -/
lemma stepLoop_dones_all_true : ∀ (acts : List Action) (e : Env) (i : ℕ),
    doneCond e = true → ∀ d ∈ (stepLoop e i acts).2.2, d = true
  | [], _, _, _, d, hd => by simp [stepLoop] at hd
  | a :: rest, e, i, h, d, hd => by
      simp only [stepLoop, List.mem_cons] at hd
      rcases hd with rfl | hd
      · rw [stepAgent_done]
        exact doneCond_mono (pres_stepAgent e i a) h
      · exact stepLoop_dones_all_true rest (stepAgent e i a).1 (i + 1)
          (doneCond_mono (pres_stepAgent e i a) h) d hd

/-- If the done condition fails on the state after the whole loop, it failed
at every intermediate check: every collected flag is `false`. -/
lemma stepLoop_dones_all_false : ∀ (acts : List Action) (e : Env) (i : ℕ),
    doneCond (stepLoop e i acts).1 = false →
    ∀ d ∈ (stepLoop e i acts).2.2, d = false
  | [], _, _, _, d, hd => by simp [stepLoop] at hd
  | a :: rest, e, i, h, d, hd => by
      simp only [stepLoop, List.mem_cons] at hd
      simp only [stepLoop] at h
      rcases hd with rfl | hd
      · rw [stepAgent_done]
        cases hda : doneCond (stepAgent e i a).1 with
        | false => rfl
        | true =>
            exact absurd
              (doneCond_mono (pres_stepLoop rest (stepAgent e i a).1 (i + 1)) hda)
              (by simp [h])
      · exact stepLoop_dones_all_false rest (stepAgent e i a).1 (i + 1) h d hd

/-- The last agent's check sees the final loop state, so if the done condition
holds after the loop (and at least one agent was processed), some collected
flag is `true`. -/
lemma stepLoop_some_done : ∀ (acts : List Action) (e : Env) (i : ℕ),
    acts ≠ [] → doneCond (stepLoop e i acts).1 = true →
    (stepLoop e i acts).2.2.any (fun d => d) = true
  | [], _, _, hne, _ => absurd rfl hne
  | [a], e, i, _, h => by
      simp only [stepLoop] at h ⊢
      rw [stepAgent_done]
      simpa using h
  | a :: b :: rest, e, i, _, h => by
      simp only [stepLoop] at h ⊢
      have ih := stepLoop_some_done (b :: rest) (stepAgent e i a).1 (i + 1)
        (by simp) (by simpa [stepLoop] using h)
      simp only [stepLoop] at ih
      simp [ih]

/-- Dones characterization of `stepResolve` (`step` lines 242, 278-281): with
one action per agent, after the `any`-lift the returned vector is all-`true`
exactly when the done condition holds on the post-resolution state, and
all-`false` otherwise. -/
lemma stepResolve_dones (e : Env) (acts : List Action)
    (hlen : acts.length = e.agents.length) (hne : acts ≠ []) :
    (doneCond (stepResolve e acts).1 = true →
      (stepResolve e acts).2.2 = List.replicate e.agents.length true) ∧
    (doneCond (stepResolve e acts).1 = false →
      (stepResolve e acts).2.2 = List.replicate e.agents.length false) := by
  have hpres := pres_stepLoop acts { e with stepCount := e.stepCount + 1 } 0
  have hlen1 : (stepLoop { e with stepCount := e.stepCount + 1 } 0 acts).1.agents.length
      = e.agents.length := hpres.agentsLen
  have hds : (stepLoop { e with stepCount := e.stepCount + 1 } 0 acts).2.2.length
      = acts.length := stepLoop_dones_length acts _ 0
  have hsub : (stepLoop { e with stepCount := e.stepCount + 1 } 0 acts).1.agents.length
      - acts.length = 0 := by rw [hlen1, ← hlen]; exact Nat.sub_self _
  unfold stepResolve
  simp only [hsub, List.replicate_zero, List.append_nil, doneCond_updateSeen]
  constructor
  · intro hdone
    rw [if_pos (stepLoop_some_done acts _ 0 hne hdone)]
    rw [List.map_const', hds, hlen]
  · intro hdone
    have hall := stepLoop_dones_all_false acts _ 0 hdone
    have hany : (stepLoop { e with stepCount := e.stepCount + 1 } 0 acts).2.2.any
        (fun d => d) = false := by
      simp only [List.any_eq_false]
      intro d hd
      simp [hall d hd]
    rw [if_neg (by simp [hany])]
    have hrep := List.eq_replicate_length.mpr hall
    rw [hds, hlen] at hrep
    exact hrep

lemma stepResolve_pres_fields (e : Env) (acts : List Action) :
    (stepResolve e acts).1.width = e.width ∧
      (stepResolve e acts).1.height = e.height ∧
      (stepResolve e acts).1.numGoals = e.numGoals ∧
      (stepResolve e acts).1.agents.length = e.agents.length := by
  have h := pres_stepLoop acts { e with stepCount := e.stepCount + 1 } 0
  unfold stepResolve
  exact ⟨h.width, h.height, h.numGoals, h.agentsLen⟩

/-- C4: Episode termination is globally synchronized.  For every call to
`step` (one action per agent), if the done condition — the step count reaching
`max_steps` or the collected count reaching `num_goals`, as evaluated by the
per-agent checks of the loop — holds on that tick, every entry of the
returned dones vector is `true`, and otherwise every entry is `false`.  The
post-resolution done condition `doneCond (stepResolve e acts).1` is exactly
"some agent's check fired": the last processed agent checks the final loop
state, and the condition is monotone along the loop
(`stepLoop_some_done` / `stepLoop_dones_all_false`). -/
theorem step_dones_global_sync (e : Env) (acts : List Action)
    (hlen : acts.length = e.agents.length) (hne : acts ≠ []) :
    (doneCond (stepResolve e acts).1 = true →
      (stepResolve e acts).2.2 = List.replicate e.agents.length true) ∧
    (doneCond (stepResolve e acts).1 = false →
      (stepResolve e acts).2.2 = List.replicate e.agents.length false) :=
  stepResolve_dones e acts hlen hne

/-- A concrete 3×3 environment (one agent boxed in by the perimeter walls)
used to instantiate the theorems: `max_steps = 1`, so the first tick
terminates the episode. -/
def envA : Env where
  width := 3
  height := 3
  gamma := 1
  maxEdgeDist := 5
  maxSteps := 1
  numGoals := 5
  rewardGoal := 10
  penaltyObstacle := -2
  penaltyGoal := -1
  penaltyInvalidMove := -3
  stepCount := 0
  numCollected := 0
  goals := []
  agents := [⟨(1, 1)⟩]
  cellAt := fun p =>
    if p.1 = 0 ∨ p.1 = 2 ∨ p.2 = 0 ∨ p.2 = 2 then some Cell.wall else none
  agentAt := fun p => if p = (1, 1) then some 0 else none
  seen := fun _ => false

theorem step_dones_global_sync_witness :
    [Action.up].length = envA.agents.length ∧ [Action.up] ≠ ([] : List Action) ∧
      doneCond (stepResolve envA [Action.up]).1 = true ∧
      (stepResolve envA [Action.up]).2.2 = List.replicate envA.agents.length true :=
  ⟨rfl, by decide, by decide,
    (step_dones_global_sync envA [Action.up] rfl (by decide)).1 (by decide)⟩

/-- C10: with `num_goals = 0` every call to `step` (one action per agent)
satisfies the done condition immediately — `num_collected >= num_goals` is
`n >= 0` — so every done flag is `true`, and building the termination info
divides `num_collected` by the zero `num_goals`, so `step` raises
`ZeroDivisionError` (the `none` result) instead of returning observations,
rewards, dones and info. -/
theorem step_zero_goals_division (e : Env) (acts : List Action)
    (h0 : e.numGoals = 0) (hlen : acts.length = e.agents.length) (hne : acts ≠ []) :
    (stepResolve e acts).2.2 = List.replicate e.agents.length true ∧
      step e acts = none := by
  have hng : (stepResolve e acts).1.numGoals = e.numGoals :=
    (stepResolve_pres_fields e acts).2.2.1
  have hdone : doneCond (stepResolve e acts).1 = true := by
    rw [doneCond_eq_true_iff]
    exact Or.inr (by rw [hng, h0]; exact Nat.zero_le _)
  have hdones := (stepResolve_dones e acts hlen hne).1 hdone
  refine ⟨hdones, ?_⟩
  obtain ⟨m, hm⟩ : ∃ m, e.agents.length = m + 1 := by
    rcases acts with _ | ⟨a, rest⟩
    · exact absurd rfl hne
    · exact ⟨rest.length, hlen.symm⟩
  have hany : (stepResolve e acts).2.2.any (fun d => d) = true := by
    rw [hdones, hm]
    simp [List.replicate_succ]
  unfold step
  simp only [hany, if_pos rfl, hng, h0, if_pos trivial]

/-- Environment `envA` with `num_goals = 0` and a large step budget: only the
`num_collected >= num_goals` half of the done condition can fire. -/
def envB : Env :=
  { envA with numGoals := 0, maxSteps := 10 }

theorem step_zero_goals_division_witness :
    envB.numGoals = 0 ∧ [Action.up].length = envB.agents.length ∧
      [Action.up] ≠ ([] : List Action) ∧
      (stepResolve envB [Action.up]).2.2 = List.replicate envB.agents.length true ∧
      step envB [Action.up] = none := by
  refine ⟨rfl, rfl, by decide, ?_⟩
  exact step_zero_goals_division envB [Action.up] rfl rfl (by decide)

/-! ### Reward shaping (C6) and observation length (C8) -/

/-- Environment `envA` with `gamma = 1/2`, a decay factor strictly between 0 and 1. -/
def envC : Env :=
  { envA with gamma := 1 / 2 }

/-- C6 (amended): for every NONZERO raw reward `r`, `gamma ∈ (0, 1)` and step
counts `t1 < t2`, the shaped reward `r * gamma ^ step_count` strictly
decreases in absolute value. -/
theorem reward_decay_strict (e : Env) (r : ℚ) (t2 : ℕ) (hr : r ≠ 0)
    (h0 : 0 < e.gamma) (h1 : e.gamma < 1) (ht : e.stepCount < t2) :
    |Env.reward { e with stepCount := t2 } r| < |e.reward r| := by
  have hpow : e.gamma ^ t2 < e.gamma ^ e.stepCount :=
    pow_lt_pow_right_of_lt_one₀ h0 h1 ht
  simp only [Env.reward]
  rw [abs_mul, abs_mul, abs_of_nonneg (le_of_lt (pow_pos h0 t2)),
    abs_of_nonneg (le_of_lt (pow_pos h0 e.stepCount))]
  exact mul_lt_mul_of_pos_left hpow (abs_pos.mpr hr)

theorem reward_decay_strict_witness :
    (10 : ℚ) ≠ 0 ∧ 0 < envC.gamma ∧ envC.gamma < 1 ∧ envC.stepCount < 1 ∧
      |Env.reward { envC with stepCount := 1 } 10| < |envC.reward 10| :=
  ⟨by norm_num, by norm_num [envC, envA], by norm_num [envC, envA],
    by norm_num [envC, envA],
    reward_decay_strict envC 10 1 (by norm_num) (by norm_num [envC, envA])
      (by norm_num [envC, envA]) (by norm_num [envC, envA])⟩

/-- C6 counterexample: the claim quantifies over EVERY raw reward value, but
at `r = 0` the shaped reward is `0` at every step count, so its absolute value
does not strictly decrease (`|0| < |0|` fails) even with `gamma = 1/2 ∈ (0,1)`
and step counts `0 < 1`. -/
theorem reward_decay_counterexample :
    0 < envC.gamma ∧ envC.gamma < 1 ∧ envC.stepCount < 1 ∧
      ¬ |Env.reward { envC with stepCount := 1 } 0| < |envC.reward 0| := by
  refine ⟨by norm_num [envC, envA], by norm_num [envC, envA],
    by norm_num [envC, envA], ?_⟩
  simp [Env.reward]

lemma goalTriples_length_aux : ∀ (l : List (GoalSt × ℤ)) (acc : List ℤ),
    (l.foldl
      (fun acc p => acc ++ [p.1.pos.1, p.1.pos.2, if p.1.collected then 1 else 0])
      acc).length = acc.length + 3 * l.length
  | [], acc => by simp
  | p :: rest, acc => by
      simp only [List.foldl_cons]
      rw [goalTriples_length_aux rest]
      simp only [List.length_append, List.length_cons, List.length_nil,
        List.length_cons]
      ring

lemma goalTriples_length (l : List (GoalSt × ℤ)) :
    (goalTriples l).length = 3 * l.length := by
  unfold goalTriples
  rw [goalTriples_length_aux]
  simp

lemma fovSorted_length_le (e : Env) (a : AgentSt) : (fovSorted e a).length ≤ 3 := by
  unfold fovSorted
  rw [List.length_take]
  exact min_le_left _ _

/-- C8: the observation vector built by `_get_obs` always has exactly 11
scalars — the agent's `(x, y)` followed by three `(x, y, collected)` goal
slots, the unused ones zero-padded — whatever the grid state and however many
goals are in range. -/
theorem getObs_length (e : Env) (a : AgentSt) : (getObs e a).length = 11 := by
  unfold getObs
  rw [List.length_append, List.length_append, goalTriples_length]
  have h3 : (fovSorted e a).length ≤ 3 := fovSorted_length_le e a
  simp only [List.length_flatten, List.map_replicate, List.sum_replicate,
    smul_eq_mul, List.length_cons, List.length_nil]
  omega

/-! ### Coverage tracker (C9) -/

/-- C9: within an episode the seen matrix is monotone per cell across a tick
(a `true` entry stays `true`), only entries for interior (non-perimeter) cells
— inner indices `(i-1, j-1)` for `1 ≤ i ≤ width-2`, `1 ≤ j ≤ height-2` — are
ever written, and the seen percentage, a pure function
`seenCount / totalCells * 100` of the matrix, is monotone non-decreasing
across the tick. -/
theorem seen_cells_monotone (e : Env) (acts : List Action) :
    (∀ p, e.seen p = true → (stepResolve e acts).1.seen p = true) ∧
    (∀ p, ¬(p.1 + 1 < e.width - 1 ∧ p.2 + 1 < e.height - 1) →
      (stepResolve e acts).1.seen p = e.seen p) ∧
    seenPercentage e ≤ seenPercentage (stepResolve e acts).1 := by
  have hpres := pres_stepLoop acts { e with stepCount := e.stepCount + 1 } 0
  have hres : (stepResolve e acts).1
      = updateSeenCells (stepLoop { e with stepCount := e.stepCount + 1 } 0 acts).1 := rfl
  have hseen : (stepLoop { e with stepCount := e.stepCount + 1 } 0 acts).1.seen
      = e.seen := hpres.seen
  have hw : (stepLoop { e with stepCount := e.stepCount + 1 } 0 acts).1.width
      = e.width := hpres.width
  have hh : (stepLoop { e with stepCount := e.stepCount + 1 } 0 acts).1.height
      = e.height := hpres.height
  have hw2 : (stepResolve e acts).1.width = e.width := (stepResolve_pres_fields e acts).1
  have hh2 : (stepResolve e acts).1.height = e.height := (stepResolve_pres_fields e acts).2.1
  have hmono : ∀ p, e.seen p = true → (stepResolve e acts).1.seen p = true := by
    intro p hp
    rw [hres]
    simp only [updateSeenCells]
    split
    · rw [hseen, hp]
      simp
    · rw [hseen]
      exact hp
  refine ⟨hmono, ?_, ?_⟩
  · intro p hnp
    rw [hres]
    simp only [updateSeenCells]
    rw [if_neg (by rw [hw, hh]; exact hnp), hseen]
  · have hcount : seenCount e ≤ seenCount (stepResolve e acts).1 := by
      unfold seenCount
      rw [hw2, hh2]
      apply Finset.card_le_card
      intro p hp
      simp only [Finset.mem_filter] at hp ⊢
      exact ⟨hp.1, hmono p hp.2⟩
    have htot : totalCells (stepResolve e acts).1 = totalCells e := by
      unfold totalCells
      rw [hw2, hh2]
    unfold seenPercentage
    rw [htot]
    refine mul_le_mul_of_nonneg_right ?_ (by norm_num)
    rw [div_eq_mul_inv, div_eq_mul_inv]
    exact mul_le_mul_of_nonneg_right (by exact_mod_cast hcount)
      (inv_nonneg.mpr (Nat.cast_nonneg _))

/-- Environment `envA` with inner cell `(0, 0)` (grid cell `(1, 1)`) already seen. -/
def envD : Env :=
  { envA with seen := fun p => decide (p = (0, 0)) }

theorem seen_cells_monotone_witness :
    envD.seen (0, 0) = true ∧ (stepResolve envD [Action.up]).1.seen (0, 0) = true :=
  ⟨by decide, (seen_cells_monotone envD [Action.up]).1 (0, 0) (by decide)⟩

/-! ### Move resolution: invalid moves, obstacle overlaps, and the
occupied-goal-cell hole (C1, C3, C7) -/

lemma movePos_ne (p : ℤ × ℤ) (a : Action) : movePos p a ≠ p := by
  obtain ⟨x, y⟩ := p
  cases a <;> simp only [movePos, ne_eq, Prod.mk.injEq, not_and] <;> intros <;> omega

/-- An agent whose target cell is a wall, or empty but occupied / out of
bounds, falls through to the `else` branch of `step`: fixed `-5` reward,
nothing mutated. -/
lemma stepAgent_invalid (e : Env) (i : ℕ) (a : Action) (ag : AgentSt)
    (hag : e.agents[i]? = some ag)
    (hinv : e.cellAt (movePos ag.pos a) = some Cell.wall ∨
      (e.cellAt (movePos ag.pos a) = none ∧
        ¬(e.agentAt (movePos ag.pos a) = none ∧ inBounds e (movePos ag.pos a) = true))) :
    stepAgent e i a = (e, e.reward (-5), doneCond e) := by
  unfold stepAgent
  simp only [hag]
  rcases hinv with hw | ⟨hc, hocc⟩
  · simp only [hw]
    rw [if_neg (by simp [canOverlap])]
  · simp only [hc]
    rw [if_neg hocc]

/-- C3 (amended): a move whose target cell is a wall, or an empty cell that is
out of bounds or occupied by another agent, is classified Invalid: the
environment (in particular the agent's position) is unchanged and the reward
is `shaped(-5)` — the fixed constant `-5` hardcoded at `step` line 276, not
the configured `penalty_invalid_move`.  (A goal or obstacle cell occupied by
another agent is NOT invalid: the `elif cell and cell.can_overlap()` branch
fires without consulting the occupancy map.) -/
theorem invalid_move_fixed_penalty (e : Env) (i : ℕ) (a : Action) (ag : AgentSt)
    (hag : e.agents[i]? = some ag)
    (hinv : e.cellAt (movePos ag.pos a) = some Cell.wall ∨
      (e.cellAt (movePos ag.pos a) = none ∧
        ¬(e.agentAt (movePos ag.pos a) = none ∧ inBounds e (movePos ag.pos a) = true))) :
    stepAgent e i a = (e, e.reward (-5), doneCond e) :=
  stepAgent_invalid e i a ag hag hinv

theorem invalid_move_fixed_penalty_witness :
    envA.agents[0]? = some ⟨(1, 1)⟩ ∧
      envA.cellAt (movePos (1, 1) Action.up) = some Cell.wall ∧
      stepAgent envA 0 Action.up = (envA, envA.reward (-5), doneCond envA) :=
  ⟨by decide, by decide,
    invalid_move_fixed_penalty envA 0 Action.up ⟨(1, 1)⟩ (by decide)
      (Or.inl (by decide))⟩

/-- Two agents and two goals on a 5×5 grid, mid-episode: agent 0 stands on
the already-collected goal at `(1, 1)` (it collected it by moving there on an
earlier tick), agent 1 is directly below at `(1, 2)`; a second, uncollected
goal keeps the episode running.  With actions `[up, up]`, agent 0 walks into
the wall at `(1, 0)` and stays put, then agent 1 moves onto the occupied goal
cell `(1, 1)`. -/
def envE : Env where
  width := 5
  height := 5
  gamma := 1
  maxEdgeDist := 10
  maxSteps := 100
  numGoals := 2
  rewardGoal := 10
  penaltyObstacle := -2
  penaltyGoal := -1
  penaltyInvalidMove := -3
  stepCount := 5
  numCollected := 1
  goals := [⟨(1, 1), true, Color.grey⟩, ⟨(3, 3), false, Color.green⟩]
  agents := [⟨(1, 1)⟩, ⟨(1, 2)⟩]
  cellAt := fun p =>
    if p.1 = 0 ∨ p.1 = 4 ∨ p.2 = 0 ∨ p.2 = 4 then some Cell.wall
    else if p = (1, 1) then some (Cell.goal 0)
    else if p = (3, 3) then some (Cell.goal 1)
    else none
  agentAt := fun p =>
    if p = (1, 1) then some 0 else if p = (1, 2) then some 1 else none
  seen := fun _ => false

/-- C1 is violated by the code: in `envE`, after one `step` with actions
`[up, up]`, both agents' current positions are `(1, 1)` — the overlap branch
of `step` (line 272) tests `cell.can_overlap()` but never the agent-occupancy
map it read on line 264, so agent 1 moves onto the goal cell still occupied
by agent 0 — and the occupancy map maps `(1, 1)` to agent 1 while agent 0's
position also equals `(1, 1)`. -/
theorem two_agents_same_cell :
    (stepResolve envE [Action.up, Action.up]).1.agents[0]? = some ⟨(1, 1)⟩ ∧
      (stepResolve envE [Action.up, Action.up]).1.agents[1]? = some ⟨(1, 1)⟩ ∧
      (stepResolve envE [Action.up, Action.up]).1.agentAt (1, 1) = some 1 := by
  decide

/-- Environment `envE` with a configured invalid-move penalty of `-2` (and `gamma = 1`,
so shaping is the identity). -/
def envF : Env :=
  { envE with penaltyInvalidMove := -2 }

/-- C3 counterexample: in `envF` with actions `[up, up]`, (a) agent 0's move
into the wall yields reward `-5` (`step` line 276 hardcodes `-5`), which
differs from the claimed `shaped(penalty_invalid_move) = -2`; and (b) agent
1's target `(1, 1)` is occupied by another agent, yet its position changes to
`(1, 1)` instead of staying `(1, 2)` — the occupied goal cell resolves as an
overlap, not an Invalid move. -/
theorem invalid_move_counterexample :
    (stepResolve envF [Action.up, Action.up]).2.1[0]? = some ((-5 : ℚ)) ∧
      Env.reward { envF with stepCount := envF.stepCount + 1 }
        envF.penaltyInvalidMove = -2 ∧
      ¬((-5 : ℚ) = -2) ∧
      envF.agents[1]? = some ⟨(1, 2)⟩ ∧
      (stepResolve envF [Action.up, Action.up]).1.agents[1]? = some ⟨(1, 1)⟩ := by
  refine ⟨?_, ?_, by norm_num, by decide, by decide⟩
  · rw [show (stepResolve envF [Action.up, Action.up]).2.1[0]?
        = some (Env.reward { envF with stepCount := envF.stepCount + 1 } (-5)) from rfl]
    norm_num [Env.reward, envF, envE]
  · norm_num [Env.reward, envF, envE]

/-- Environment `envE` with an obstacle at `(2, 1)` instead of the goals, agent 0 at
`(1, 1)`. -/
def envG : Env where
  width := 5
  height := 5
  gamma := 1
  maxEdgeDist := 10
  maxSteps := 100
  numGoals := 1
  rewardGoal := 10
  penaltyObstacle := -2
  penaltyGoal := -1
  penaltyInvalidMove := -3
  stepCount := 5
  numCollected := 0
  goals := [⟨(3, 3), false, Color.green⟩]
  agents := [⟨(1, 1)⟩]
  cellAt := fun p =>
    if p.1 = 0 ∨ p.1 = 4 ∨ p.2 = 0 ∨ p.2 = 4 then some Cell.wall
    else if p = (2, 1) then some (Cell.obstacle 0)
    else if p = (3, 3) then some (Cell.goal 0)
    else none
  agentAt := fun p => if p = (1, 1) then some 0 else none
  seen := fun _ => false

/-- C7: a move whose target cell contains an obstacle resolves as an overlap,
not a block: the agent receives `shaped(penalty_obstacle)` and still moves
onto the obstacle's cell (its position becomes the target and the occupancy
map maps the target to it) — in contrast to a wall target, which leaves the
whole environment, including the agent's position, unchanged. -/
theorem obstacle_overlap_moves (e : Env) (i : ℕ) (a : Action) (ag : AgentSt) (k : ℕ)
    (hag : e.agents[i]? = some ag) :
    (e.cellAt (movePos ag.pos a) = some (Cell.obstacle k) →
      (stepAgent e i a).2.1 = e.reward e.penaltyObstacle ∧
      (stepAgent e i a).1.agents[i]? = some { ag with pos := movePos ag.pos a } ∧
      (stepAgent e i a).1.agentAt (movePos ag.pos a) = some i) ∧
    (e.cellAt (movePos ag.pos a) = some Cell.wall →
      stepAgent e i a = (e, e.reward (-5), doneCond e)) := by
  have hlt : i < e.agents.length := (List.getElem?_eq_some.mp hag).1
  constructor
  · intro hc
    unfold stepAgent
    simp only [hag, hc]
    rw [if_pos (show canOverlap (Cell.obstacle k) = true by rfl)]
    simp only [handleOverlap, moveOnto, hag]
    refine ⟨by trivial, ?_, ?_⟩
    · exact List.getElem?_set_eq_of_lt _ hlt
    · rw [Function.update_noteq (movePos_ne ag.pos a), Function.update_same]
  · intro hc
    exact stepAgent_invalid e i a ag hag (Or.inl hc)

theorem obstacle_overlap_moves_witness :
    envG.agents[0]? = some ⟨(1, 1)⟩ ∧
      envG.cellAt (movePos (1, 1) Action.right) = some (Cell.obstacle 0) ∧
      (stepAgent envG 0 Action.right).2.1 = envG.reward envG.penaltyObstacle ∧
      (stepAgent envG 0 Action.right).1.agents[0]? = some ⟨(2, 1)⟩ ∧
      (stepAgent envG 0 Action.right).1.agentAt (2, 1) = some 0 := by
  have h := (obstacle_overlap_moves envG 0 Action.right ⟨(1, 1)⟩ 0 (by decide)).1
    (by decide)
  exact ⟨by decide, by decide, h.1, h.2.1, h.2.2⟩

/-! ### Observation builder: which goals are selected (C2) -/

instance fovKeyTotal : IsTotal (GoalSt × ℤ) (fun p q => p.2 ≤ q.2) :=
  ⟨fun p q => le_total p.2 q.2⟩

instance fovKeyTrans : IsTrans (GoalSt × ℤ) (fun p q => p.2 ≤ q.2) :=
  ⟨fun _ _ _ h h' => le_trans h h'⟩

lemma fovPairs_eq_aux (e : Env) (a : AgentSt) :
    ∀ (l : List GoalSt) (acc : List (GoalSt × ℤ)),
      (l.foldl (fun acc g =>
        if sqrtLe ((dist2 a.pos g.pos : ℤ) : ℚ) e.maxEdgeDist && !g.collected then
          acc ++ [(g, dist2 a.pos g.pos)]
        else acc) acc)
      = acc ++ (l.filter fun g =>
          sqrtLe ((dist2 a.pos g.pos : ℤ) : ℚ) e.maxEdgeDist && !g.collected).map
            fun g => (g, dist2 a.pos g.pos)
  | [], acc => by simp
  | g :: rest, acc => by
      simp only [List.foldl_cons, List.filter_cons]
      by_cases hp :
          (sqrtLe ((dist2 a.pos g.pos : ℤ) : ℚ) e.maxEdgeDist && !g.collected) = true
      · rw [if_pos hp, if_pos hp, fovPairs_eq_aux e a rest]
        simp
      · rw [if_neg hp, if_neg hp, fovPairs_eq_aux e a rest]

/-- The filter loop of `_get_obs` keeps exactly the uncollected goals within
`max_edge_dist`, in list order, paired with their squared distances. -/
lemma fovPairs_eq (e : Env) (a : AgentSt) :
    fovPairs e a = (e.goals.filter fun g =>
        sqrtLe ((dist2 a.pos g.pos : ℤ) : ℚ) e.maxEdgeDist && !g.collected).map
        fun g => (g, dist2 a.pos g.pos) := by
  unfold fovPairs
  rw [fovPairs_eq_aux e a e.goals []]
  simp

/-- C2 (amended): the observation builder considers only the UNCOLLECTED
goals still tracked: it computes the (squared) Euclidean distance from the
agent to each goal, keeps exactly those uncollected with distance
`<= max_edge_dist`, sorts ascending by distance, and selects up to the 3
nearest (every kept goal is selected, or the three selected are all at
distance no larger than the kept goal's); the collected flag appended for a
selected goal is always 0. -/
theorem obs_selects_nearest_uncollected (e : Env) (a : AgentSt) :
    (fovSorted e a).length ≤ 3 ∧
    (∀ p ∈ fovSorted e a, p.1 ∈ e.goals ∧ p.1.collected = false ∧
      sqrtLe ((dist2 a.pos p.1.pos : ℤ) : ℚ) e.maxEdgeDist = true ∧
      p.2 = dist2 a.pos p.1.pos) ∧
    List.Sorted (fun p q : GoalSt × ℤ => p.2 ≤ q.2) (fovSorted e a) ∧
    (∀ g ∈ e.goals, g.collected = false →
      sqrtLe ((dist2 a.pos g.pos : ℤ) : ℚ) e.maxEdgeDist = true →
      (g, dist2 a.pos g.pos) ∈ fovSorted e a ∨
        ((fovSorted e a).length = 3 ∧
          ∀ p ∈ fovSorted e a, p.2 ≤ dist2 a.pos g.pos)) := by
  have hsorted : List.Sorted (fun p q : GoalSt × ℤ => p.2 ≤ q.2)
      (List.insertionSort (fun p q : GoalSt × ℤ => p.2 ≤ q.2) (fovPairs e a)) :=
    List.sorted_insertionSort _ (fovPairs e a)
  have hfst : fovSorted e a
      = (List.insertionSort (fun p q : GoalSt × ℤ => p.2 ≤ q.2) (fovPairs e a)).take 3 :=
    rfl
  refine ⟨fovSorted_length_le e a, ?_, ?_, ?_⟩
  · intro p hp
    have hp' : p ∈ fovPairs e a := by
      rw [hfst] at hp
      exact (List.mem_insertionSort _).mp (List.mem_of_mem_take hp)
    rw [fovPairs_eq] at hp'
    obtain ⟨g, hg, rfl⟩ := List.mem_map.mp hp'
    obtain ⟨hgoals, hcond⟩ := List.mem_filter.mp hg
    rw [Bool.and_eq_true] at hcond
    exact ⟨hgoals, by simpa using hcond.2, hcond.1, rfl⟩
  · rw [hfst]
    exact List.Pairwise.sublist (List.take_sublist 3 _) hsorted
  · intro g hg hcol hrange
    have hmem : (g, dist2 a.pos g.pos) ∈ fovPairs e a := by
      rw [fovPairs_eq]
      exact List.mem_map.mpr ⟨g, List.mem_filter.mpr ⟨hg, by simp [hrange, hcol]⟩, rfl⟩
    have hmemL : (g, dist2 a.pos g.pos) ∈
        List.insertionSort (fun p q : GoalSt × ℤ => p.2 ≤ q.2) (fovPairs e a) :=
      (List.mem_insertionSort _).mpr hmem
    by_cases hlen :
        (List.insertionSort (fun p q : GoalSt × ℤ => p.2 ≤ q.2) (fovPairs e a)).length ≤ 3
    · left
      rw [hfst, List.take_of_length_le hlen]
      exact hmemL
    · have h3 : (fovSorted e a).length = 3 := by
        rw [hfst, List.length_take]
        omega
      rw [← List.take_append_drop 3
        (List.insertionSort (fun p q : GoalSt × ℤ => p.2 ≤ q.2) (fovPairs e a))] at hmemL
      rcases List.mem_append.mp hmemL with hin | hdrop
      · exact Or.inl (by rw [hfst]; exact hin)
      · refine Or.inr ⟨h3, fun p hp => ?_⟩
        rw [hfst] at hp
        exact List.Sorted.rel_of_mem_take_of_mem_drop hsorted hp hdrop

theorem obs_selects_nearest_uncollected_witness :
    (⟨(3, 3), false, Color.green⟩, (8 : ℤ)) ∈ fovSorted envG ⟨(1, 1)⟩ ∧
      (⟨(3, 3), false, Color.green⟩ : GoalSt) ∈ envG.goals ∧
      (⟨(3, 3), false, Color.green⟩ : GoalSt).collected = false := by
  have hrange : sqrtLe ((dist2 (1, 1) (3, 3) : ℤ) : ℚ) envG.maxEdgeDist = true := by
    simp only [sqrtLe, Bool.and_eq_true, decide_eq_true_eq]
    constructor <;> norm_num [dist2, envG]
  have hsel : fovSorted envG ⟨(1, 1)⟩ = [(⟨(3, 3), false, Color.green⟩, 8)] := by
    have h8 : dist2 (1, 1) (3, 3) = 8 := by norm_num [dist2]
    unfold fovSorted fovPairs
    rw [show envG.goals = [⟨(3, 3), false, Color.green⟩] from rfl]
    simp only [List.foldl_cons, List.foldl_nil]
    rw [hrange, h8]
    rfl
  have hmem : (⟨(3, 3), false, Color.green⟩, (8 : ℤ)) ∈ fovSorted envG ⟨(1, 1)⟩ := by
    rw [hsel]
    exact List.mem_singleton.mpr rfl
  have h := (obs_selects_nearest_uncollected envG ⟨(1, 1)⟩).2.1 _ hmem
  exact ⟨hmem, h.1, h.2.1⟩

/-- A 4×4 grid whose single tracked goal, at `(1, 2)`, is already collected;
the agent stands adjacent at `(1, 1)` with `max_edge_dist = 5`. -/
def envH : Env where
  width := 4
  height := 4
  gamma := 1
  maxEdgeDist := 5
  maxSteps := 50
  numGoals := 1
  rewardGoal := 10
  penaltyObstacle := -2
  penaltyGoal := -1
  penaltyInvalidMove := -3
  stepCount := 3
  numCollected := 1
  goals := [⟨(1, 2), true, Color.grey⟩]
  agents := [⟨(1, 1)⟩]
  cellAt := fun p =>
    if p.1 = 0 ∨ p.1 = 3 ∨ p.2 = 0 ∨ p.2 = 3 then some Cell.wall
    else if p = (1, 2) then some (Cell.goal 0)
    else none
  agentAt := fun p => if p = (1, 1) then some 0 else none
  seen := fun _ => false

/-- C2 counterexample: `envH`'s tracked, already-collected goal at `(1, 2)`
is within `max_edge_dist` of the agent at `(1, 1)`, yet the builder keeps no
goal at all — `_get_obs` line 186 requires `not goal.collected` — and the
observation is pure padding, refuting "considers every goal still tracked,
whether uncollected or already collected ... keeps exactly those with
distance <= max_edge_dist". -/
theorem obs_ignores_collected_counterexample :
    envH.goals[0]? = some ⟨(1, 2), true, Color.grey⟩ ∧
      sqrtLe ((dist2 (1, 1) (1, 2) : ℤ) : ℚ) envH.maxEdgeDist = true ∧
      fovSorted envH ⟨(1, 1)⟩ = [] ∧
      getObs envH ⟨(1, 1)⟩ = [1, 1, 0, 0, 0, 0, 0, 0, 0, 0, 0] := by
  have hsel : fovSorted envH ⟨(1, 1)⟩ = [] := by
    unfold fovSorted fovPairs
    rw [show envH.goals = [⟨(1, 2), true, Color.grey⟩] from rfl]
    simp only [List.foldl_cons, List.foldl_nil]
    simp
  refine ⟨rfl, ?_, hsel, ?_⟩
  · simp only [sqrtLe, Bool.and_eq_true, decide_eq_true_eq]
    constructor <;> norm_num [dist2, envH]
  · unfold getObs
    rw [hsel]
    rfl

/-! ### Placement rejection sampling (C5) -/

/-- Whatever the placement loop returns was an empty cell drawn from the
sample stream. -/
lemma placeLoop_sound (cellAt : ℤ × ℤ → Option Cell) (samples : ℕ → ℤ × ℤ) :
    ∀ (fuel k : ℕ) (p : ℤ × ℤ), placeLoop cellAt samples k fuel = some p →
      cellAt p = none ∧ ∃ j, p = samples j
  | 0, k, p, h => by simp [placeLoop] at h
  | fuel + 1, k, p, h => by
      unfold placeLoop at h
      by_cases hc : cellAt (samples k) = none
      · rw [if_pos hc] at h
        have hpk := Option.some.inj h
        subst hpk
        exact ⟨hc, k, rfl⟩
      · rw [if_neg hc] at h
        exact placeLoop_sound cellAt samples fuel (k + 1) p h

/-- If the `n`-th draw after position `k` hits an empty cell, some finite fuel
makes the loop (started at draw `k`) return. -/
lemma placeLoop_hits (cellAt : ℤ × ℤ → Option Cell) (samples : ℕ → ℤ × ℤ) :
    ∀ (n k : ℕ), cellAt (samples (k + n)) = none →
      ∃ fuel, (placeLoop cellAt samples k fuel).isSome
  | 0, k, h =>
      ⟨1, by unfold placeLoop; rw [if_pos (by simpa using h)]; rfl⟩
  | n + 1, k, h => by
      by_cases hc : cellAt (samples k) = none
      · exact ⟨1, by unfold placeLoop; rw [if_pos hc]; rfl⟩
      · obtain ⟨fuel, hf⟩ := placeLoop_hits cellAt samples n (k + 1)
          (by have hkn : k + 1 + n = k + (n + 1) := by omega
              rw [hkn]; exact h)
        exact ⟨fuel + 1, by unfold placeLoop; rw [if_neg hc]; exact hf⟩

/-- C5 (amended): the `while True` loop of `_place_object` terminates exactly
when the random stream eventually draws a cell with no static content — it
then places the object at the first such draw, which is an empty sampled
cell; when the interior is full relative to the requested counts every draw
is occupied and the loop never terminates.  The source raises no
PlacementError (no failure path exists). -/
theorem place_object_termination (cellAt : ℤ × ℤ → Option Cell)
    (samples : ℕ → ℤ × ℤ) :
    ((∃ n, cellAt (samples n) = none) → placeTerminates cellAt samples) ∧
    (∀ fuel p, placeLoop cellAt samples 0 fuel = some p →
      cellAt p = none ∧ ∃ j, p = samples j) ∧
    ((∀ n, cellAt (samples n) ≠ none) → ¬placeTerminates cellAt samples) := by
  refine ⟨?_, fun fuel p h => placeLoop_sound cellAt samples fuel 0 p h, ?_⟩
  · rintro ⟨n, hn⟩
    exact placeLoop_hits cellAt samples n 0 (by simpa using hn)
  · intro hall h
    obtain ⟨fuel, hf⟩ := h
    obtain ⟨p, hp⟩ := Option.isSome_iff_exists.mp hf
    obtain ⟨hnone, j, rfl⟩ := placeLoop_sound cellAt samples fuel 0 p hp
    exact hall j hnone

theorem place_object_termination_witness :
    envG.cellAt ((fun _ => ((1 : ℤ), (2 : ℤ))) 0) = none ∧
      placeTerminates envG.cellAt fun _ => ((1 : ℤ), (2 : ℤ)) :=
  ⟨by decide,
    (place_object_termination envG.cellAt fun _ => ((1 : ℤ), (2 : ℤ))).1 ⟨0, by decide⟩⟩

/-- A 4×4 grid whose whole interior `{1, 2} × {1, 2}` is filled with
obstacles (perimeter walls around it): the configuration of the claim's
"interior full relative to the requested counts" case. -/
def fullCellAt : ℤ × ℤ → Option Cell := fun p =>
  if 1 ≤ p.1 ∧ p.1 ≤ 2 ∧ 1 ≤ p.2 ∧ p.2 ≤ 2 then some (Cell.obstacle 0)
  else if 0 ≤ p.1 ∧ p.1 ≤ 3 ∧ 0 ≤ p.2 ∧ p.2 ≤ 3 then some Cell.wall
  else none

/-- On a 4×4 grid `_rand_pos(1, width - 2, 1, height - 2)` draws from the
half-open ranges `[1, 2) × [1, 2)` (`numpy integers` excludes the upper
bound), so every draw is `(1, 1)`. -/
def fullSamples : ℕ → ℤ × ℤ := fun _ => (1, 1)

/-- C5 counterexample: with the interior full, `_place_object`'s loop never
terminates — for no amount of fuel does it return — rather than failing with
a PlacementError (the source has no failure path at all). -/
theorem place_object_full_never_terminates :
    ¬placeTerminates fullCellAt fullSamples := by
  intro h
  obtain ⟨fuel, hf⟩ := h
  obtain ⟨p, hp⟩ := Option.isSome_iff_exists.mp hf
  obtain ⟨hnone, j, rfl⟩ := placeLoop_sound fullCellAt fullSamples fuel 0 p hp
  simp [fullCellAt, fullSamples] at hnone

end MultiGrid
